import Mathlib

/-!
Shallow embedding of the Invest Komfort price-scraper core (`main.py`).

The HTML library (BeautifulSoup) and the network fetcher are external
collaborators: a fetched page is modelled as the structured view the code
extracts from it — the list of elements with class "pricing", each holding
the list of `td` cells that `find_all('td', class_='')` returns, where a
cell carries the text of its `span` (the room label) and the text of its
second content node (the price text).  Everything downstream of that view
(the regexes, the int conversions, the dict building, the snapshot class,
the city collection and its loops) is translated statement by statement
from the source.
-/

set_option autoImplicit false

deriving instance DecidableEq for Except

/-- A Python value that is either an `int` or a `str`: the parser stores
`int` pairs for range cells and `str` pairs for single-value cells. -/
inductive PyVal where
  | int (n : Int)
  | str (s : String)
deriving DecidableEq, Repr

/-- Whether a `PyVal` is a Python `int`. -/
def PyVal.isInt : PyVal → Bool
  | .int _ => true
  | .str _ => false

/-- Python exceptions the embedded code can raise.  `missingSection` is the
`IndexError` of `find_all(...)[0]` on a page with no pricing section (the
spec's `MissingSection`); `attributeError` is `.group(0)` on a failed
`re.match` (or `.keys()` on `None`); `valueError` is `int()` on a
non-numeric string, or `pd.concat` on an empty list. -/
inductive PyErr where
  | missingSection
  | attributeError
  | valueError
deriving DecidableEq, Repr

/-- Python `\s` on the inputs at hand (ASCII whitespace). -/
def isWs (c : Char) : Bool :=
  c == ' ' || c == '\t' || c == '\n' || c == '\r' || c == '\x0b' || c == '\x0c'

/-- The character class `[\d\s]` of the price regexes. -/
def isClass (c : Char) : Bool :=
  c.isDigit || isWs c

/-- Leading and trailing whitespace removal performed by Python `int()`. -/
def stripWs (cs : List Char) : List Char :=
  ((cs.dropWhile isWs).reverse.dropWhile isWs).reverse

/-- `str.replace(" ", "")`: removes every space character (only `' '`). -/
def stripSpaces (cs : List Char) : List Char :=
  cs.filter (fun c => c != ' ')

/-- Decimal value of a digit string. -/
def natVal (cs : List Char) : Nat :=
  cs.foldl (fun a c => 10 * a + (c.toNat - 48)) 0

/-- Python `int(s)` on the strings this program feeds it (digit characters
possibly surrounded by whitespace; the program never passes signs or
underscores): strips outer whitespace, then requires a non-empty all-digit
string, otherwise raises `ValueError`. -/
def pyInt (cs : List Char) : Except PyErr Int :=
  let t := stripWs cs
  if t ≠ [] ∧ (∀ c ∈ t, c.isDigit = true) then .ok (Int.ofNat (natVal t))
  else .error .valueError

/-- `re.match("\d+", s)`: the maximal leading run of digits, or no match. -/
def matchDigitsCore (cs : List Char) : Option (List Char) :=
  let r := cs.takeWhile Char.isDigit
  if r = [] then none else some r

/-- `re.match("([\d\s]+) - ([\d\s]+)", s)`.  The greedy first group must be
followed by the literal text `" - "`; since `'-'` is outside `[\d\s]`, the
only candidate split puts the dash immediately after the maximal `[\d\s]`
run, so the run must end in the literal space, the next characters must be
`'-'` and `' '`, group 1 is the run without its final space and group 2 is
the maximal `[\d\s]` run after the separator (both non-empty). -/
def match2core (cs : List Char) : Option (List Char × List Char) :=
  match cs.dropWhile isClass with
  | '-' :: ' ' :: tail =>
    let run := cs.takeWhile isClass
    if 2 ≤ run.length ∧ run.getLast? = some ' ' then
      let g2 := tail.takeWhile isClass
      if g2 = [] then none else some (run.dropLast, g2)
    else none
  | _ => none

/-- `re.match("[\d\s]+", s)`: the maximal leading `[\d\s]` run. -/
def match1core (cs : List Char) : Option (List Char) :=
  let r := cs.takeWhile isClass
  if r = [] then none else some r

/-- One `td` cell of the pricing table: the string of its `span` (room
label such as "2 pok.") and its second content node (the price text). -/
structure Cell where
  spanString : String
  priceText : String
deriving DecidableEq, Repr

/-- The structured view of a fetched page: the elements of class
"pricing", each with the `td` cells the parser iterates. -/
structure Html where
  pricingSections : List (List Cell)
deriving DecidableEq, Repr

/-- Python `d[k] = v` on an (insertion-ordered) dict: replace the value in
place if the key exists, otherwise append the binding. -/
def dictSet {α : Type} : List (String × α) → String → α → List (String × α)
  | [], k, v => [(k, v)]
  | p :: rest, k, v => if p.1 == k then (k, v) :: rest else p :: dictSet rest k v

/-- Python `d[k]` lookup (as an `Option`). -/
def dictGet {α : Type} (d : List (String × α)) (k : String) : Option α :=
  (d.find? (fun p => p.1 == k)).map Prod.snd

/-- Number of bindings a key has in an association list (a real Python
dict always has at most one). -/
def countKey {α : Type} (d : List (String × α)) (k : String) : Nat :=
  (d.filter (fun p => p.1 == k)).length

/-- The parser's output: the `prices` dict, room label string to pair. -/
def PricesDict : Type := List (String × (PyVal × PyVal))

instance : DecidableEq PricesDict := by
  unfold PricesDict
  infer_instance

/-- The loop body of `retrieve_flat_prices` for a single `td` cell:
`room = re.match("\d+", number_of_rooms).group(0)` (AttributeError if no
match), then the range pattern, falling back to the single-value pattern
(AttributeError if that also fails), storing `int` pairs for ranges and
the space-stripped string twice for single values. -/
def processCell (prices : PricesDict) (cell : Cell) : Except PyErr PricesDict :=
  match matchDigitsCore cell.spanString.data with
  | none => .error .attributeError
  | some roomChars =>
    let room := String.mk roomChars
    match match2core cell.priceText.data with
    | some g =>
      match pyInt (stripSpaces g.1) with
      | .error e => .error e
      | .ok mn =>
        match pyInt (stripSpaces g.2) with
        | .error e => .error e
        | .ok mx => .ok (dictSet prices room (PyVal.int mn, PyVal.int mx))
    | none =>
      match match1core cell.priceText.data with
      | none => .error .attributeError
      | some run =>
        let p := String.mk (stripSpaces run)
        .ok (dictSet prices room (PyVal.str p, PyVal.str p))

/-- The `for table_row in room_prices_raw` loop, first exception wins. -/
def processCells : PricesDict → List Cell → Except PyErr PricesDict
  | prices, [] => .ok prices
  | prices, c :: rest =>
    match processCell prices c with
    | .error e => .error e
    | .ok prices2 => processCells prices2 rest

/-- `retrieve_flat_prices`: `None` input propagates as `None`; otherwise
take the first element of class "pricing" (IndexError — the spec's
`MissingSection` — if there is none) and fold the cell loop. -/
def retrieve_flat_prices (html_content : Option Html) : Except PyErr (Option PricesDict) :=
  match html_content with
  | none => .ok none
  | some page =>
    match page.pricingSections with
    | [] => .error .missingSection
    | sec :: _ =>
      match processCells [] sec with
      | .error e => .error e
      | .ok prices => .ok (some prices)

/-- Python `int(x)` applied to a dict value that is either already an
`int` (range cells) or a digit string (single-value cells, room keys). -/
def pyIntVal (v : PyVal) : Except PyErr Int :=
  match v with
  | .int n => .ok n
  | .str s => pyInt s.data

/-- `NeighbourhoodPrices`: the four parallel sequences built by
`__init__` next to the construction inputs.  The date is kept as the
`%Y-%m-%d` string the caller passes. -/
structure NeighbourhoodPrices where
  date : String
  name : String
  neighb_prices : List (String × (PyVal × PyVal))
  rooms : List Int
  min_prices : List Int
  max_prices : List Int
  avg_prices : List ℚ
deriving DecidableEq, Repr

/-- One iteration of the `for rooms, price_range in ... .items()` loop:
`int(price_range[0])`, `int(price_range[1])`, the average
`(int(price_range[0]) + int(price_range[0])) / 2` (true division, exact
here), `int(rooms)` — in the source's evaluation order, first exception
wins.  Result `(min, max, avg, room)`. -/
def roomEntry (kv : String × (PyVal × PyVal)) : Except PyErr (Int × Int × ℚ × Int) :=
  match pyIntVal kv.2.1 with
  | .error e => .error e
  | .ok mn =>
    match pyIntVal kv.2.2 with
    | .error e => .error e
    | .ok mx =>
      let avg : ℚ := ((mn : ℚ) + (mn : ℚ)) / 2
      match pyInt kv.1.data with
      | .error e => .error e
      | .ok rm => .ok (mn, mx, avg, rm)

/-- The whole `.items()` loop of `__init__`. -/
def roomEntries : List (String × (PyVal × PyVal)) → Except PyErr (List (Int × Int × ℚ × Int))
  | [] => .ok []
  | kv :: rest =>
    match roomEntry kv with
    | .error e => .error e
    | .ok t =>
      match roomEntries rest with
      | .error e => .error e
      | .ok ts => .ok (t :: ts)

/-- `NeighbourhoodPrices.__init__`.  A `None` prices argument raises
`AttributeError` at `self.neighb_prices.keys()` (line 60 of the source);
otherwise the loop fills the four parallel lists.  (Line 60 assigns
`list(keys())` to `self.rooms` and line 61 immediately overwrites it with
`[]`, so `rooms` starts empty.) -/
def NeighbourhoodPrices.init (date name : String) (neighb_prices : Option PricesDict) :
    Except PyErr NeighbourhoodPrices :=
  match neighb_prices with
  | none => .error .attributeError
  | some d =>
    match roomEntries d with
    | .error e => .error e
    | .ok ts =>
      .ok ⟨date, name, d,
           ts.map (fun t => t.2.2.2),
           ts.map (fun t => t.1),
           ts.map (fun t => t.2.1),
           ts.map (fun t => t.2.2.1)⟩

/-- `NeighbourhoodPrices.__str__`: a header (containing exactly two
newline characters) followed by one row per index of
`range(0, len(self.rooms) - 1)` — note the source's upper bound stops one
short of the last entry.  Each row starts with a newline.  Number
rendering differs cosmetically from Python (`450000` vs `450000.0`);
rows and newlines are reproduced exactly. -/
def NeighbourhoodPrices.toStr (np : NeighbourhoodPrices) : String :=
  let header := "Pricing for " ++ np.name ++ " at " ++ np.date ++
    ":\n----------------------------------------\nRooms\tMin\tMax\tAvg"
  (List.range (np.rooms.length - 1)).foldl
    (fun acc i =>
      acc ++ "\n" ++ toString (np.rooms.getD i 0) ++ "\t" ++
        toString (np.min_prices.getD i 0) ++ "\t" ++
        toString (np.max_prices.getD i 0) ++ "\t" ++
        toString (np.avg_prices.getD i 0))
    header

/-- Number of newline characters in a string; the `__str__` header holds
exactly two, and each data row contributes exactly one more. -/
def newlineCount (s : String) : Nat :=
  s.data.count '\n'

/-- One row of the flat table: (Neighbourhood, Date, Rooms, Min Price,
Max Price, Avg Price). -/
def Row : Type := String × String × Int × Int × Int × ℚ

instance : DecidableEq Row := by
  unfold Row
  infer_instance

/-- `pd.DataFrame(data=self.to_dict())`: the row-oriented view of the
snapshot's six equal-length columns. -/
def NeighbourhoodPrices.toRows (np : NeighbourhoodPrices) : List Row :=
  (np.rooms.zip (np.min_prices.zip (np.max_prices.zip np.avg_prices))).map
    (fun r => (np.name, np.date, r.1, r.2.1, r.2.2.1, r.2.2.2))

/-- `CityPrices`: the city name, the (mutable) neighbourhood list and the
dated mapping `data`, date string to per-neighbourhood snapshot dict. -/
structure CityPrices where
  location : String
  neighbs : List String
  data : List (String × List (String × NeighbourhoodPrices))
deriving DecidableEq, Repr

/-- Errors a `get_prices` run can raise: `nameError` is the
`UnboundLocalError` at `self.data[now]` when the loop never bound `now`;
`pyErr` wraps an exception propagating out of the parser or the snapshot
constructor. -/
inductive RunErr where
  | nameError
  | pyErr (e : PyErr)
deriving DecidableEq, Repr

/-- The `for neighb in self.neighbs` loop of `get_prices`, with CPython's
for-statement semantics over a list that the body mutates: an index `i`
advances by one each iteration and reads `self.neighbs[i]` afresh, so a
`remove` of the current element shifts the next element into the current
slot and the loop skips it.  `fuel` only bounds the recursion; since `i`
grows and the list never grows, `initial length + 1` steps always reach
the exit guard, so the `0` case is never the reason the loop stops.
State: current list, `results` dict, and the optional binding of `now`
(set to today's date string whenever a truthy neighbourhood is visited,
before the fetch).  A fetch returning `None` — or a falsy neighbourhood —
removes the first occurrence of that identifier from the list. -/
def getPricesLoop (fetch : String → String → Option Html) (location today : String) :
    Nat → Nat → List String → List (String × NeighbourhoodPrices) → Option String →
    Except RunErr (List String × List (String × NeighbourhoodPrices) × Option String)
  | 0, _, ns, res, now => .ok (ns, res, now)
  | fuel + 1, i, ns, res, now =>
    match ns.get? i with
    | none => .ok (ns, res, now)
    | some neighb =>
      if neighb.isEmpty then
        getPricesLoop fetch location today fuel (i + 1) (ns.erase neighb) res now
      else
        match fetch location neighb with
        | some html =>
          match retrieve_flat_prices (some html) with
          | .error e => .error (.pyErr e)
          | .ok pricesOpt =>
            match NeighbourhoodPrices.init today neighb pricesOpt with
            | .error e => .error (.pyErr e)
            | .ok snap =>
              getPricesLoop fetch location today fuel (i + 1) ns
                (dictSet res neighb snap) (some today)
        | none =>
          getPricesLoop fetch location today fuel (i + 1) (ns.erase neighb) res (some today)

/-- `CityPrices.get_prices`.  The fetcher (`get_page_content`, an external
collaborator) and today's date string are passed in.  After the loop,
`self.data[now] = results` raises `NameError` when `now` was never bound
(no truthy neighbourhood was visited), otherwise it upserts the results
dict under today's date. -/
def CityPrices.get_prices (fetch : String → String → Option Html) (today : String)
    (cp : CityPrices) : Except RunErr CityPrices :=
  match getPricesLoop fetch cp.location today (cp.neighbs.length + 1) 0 cp.neighbs [] none with
  | .error e => .error e
  | .ok (_, _, none) => .error .nameError
  | .ok (ns, res, some now) => .ok ⟨cp.location, ns, dictSet cp.data now res⟩

/-- `CityPrices.to_df`.  `if self.data:` on an empty dict falls through
without a `return`, yielding Python `None` (modelled `ok none`).
Otherwise the `for date, neighbs_dict in self.data.items()` loop rebinds
`results` on every iteration, so only the frames of the *last* date
survive; `pd.concat` of an empty frame list raises `ValueError`. -/
def CityPrices.to_df (cp : CityPrices) : Except PyErr (Option (List Row)) :=
  match cp.data.getLast? with
  | none => .ok none
  | some entry =>
    let frames := (entry.2.map (fun p => p.2.toRows))
    if frames = [] then .error .valueError
    else .ok (some frames.flatten)

/-! ### Concrete fixtures used by the claim theorems -/

/-- The spec's end-to-end example page: one pricing section with the two
cells "2 pok." / "450 000 - 500 000" and "3 pok." / "600 000". -/
def pageExample : Html :=
  ⟨[[⟨"2 pok.", "450 000 - 500 000"⟩, ⟨"3 pok.", "600 000"⟩]]⟩

/-- A page whose only price cell is the inverted range "500 - 400". -/
def pageInverted : Html :=
  ⟨[[⟨"2 pok.", "500 - 400"⟩]]⟩

/-- A well-formed page with a single "100 - 200" range cell. -/
def pageGood : Html :=
  ⟨[[⟨"2 pok.", "100 - 200"⟩]]⟩

/-- A fetcher that always returns `pageGood`. -/
def fetchGood : String → String → Option Html := fun _ _ => some pageGood

/-- A fetcher that always fails. -/
def fetchNone : String → String → Option Html := fun _ _ => none

/-- A fetcher that differs from `fetchNone` only on falsy identifiers. -/
def fetchEmptyOnly : String → String → Option Html :=
  fun _ x => if x.isEmpty then some pageGood else none

/-- The snapshot `NeighbourhoodPrices.init "2024-01-01" "a"` builds from
`pageGood`'s parse result (the average written exactly as the constructor
computes it). -/
def snapGood : NeighbourhoodPrices :=
  ⟨"2024-01-01", "a", [("2", (PyVal.int 100, PyVal.int 200))],
   [2], [100], [200], [(((100 : Int) : ℚ) + ((100 : Int) : ℚ)) / 2]⟩

/-- A city with the single neighbourhood "a" and no data yet. -/
def cityA : CityPrices := ⟨"gdynia", ["a"], []⟩

/-- `cityA` after one `get_prices` run with `fetchGood` on 2024-01-01. -/
def cityA1 : CityPrices := ⟨"gdynia", ["a"], [("2024-01-01", [("a", snapGood)])]⟩

/-- A snapshot literal with one row, dated 2024-01-01, for `to_df` tests. -/
def snapRowA : NeighbourhoodPrices :=
  ⟨"2024-01-01", "a", [("2", (PyVal.int 100, PyVal.int 200))], [2], [100], [200], [(100 : ℚ)]⟩

/-- A snapshot literal with one row, dated 2024-01-02. -/
def snapRowB : NeighbourhoodPrices :=
  ⟨"2024-01-02", "b", [("3", (PyVal.int 300, PyVal.int 400))], [3], [300], [400], [(300 : ℚ)]⟩

/-- A city collection whose dated mapping holds two dates with one
single-row neighbourhood snapshot each. -/
def cityTwoDates : CityPrices :=
  ⟨"gdynia", [], [("2024-01-01", [("a", snapRowA)]), ("2024-01-02", [("b", snapRowB)])]⟩

/-- The snapshot used by the C3 witness, written exactly as
`NeighbourhoodPrices.init` computes it from `{"2": (1, 9)}`. -/
def snapMin1Max9 : NeighbourhoodPrices :=
  ⟨"2024-01-01", "a", [("2", (PyVal.int 1, PyVal.int 9))],
   [2], [1], [9], [(((1 : Int) : ℚ) + ((1 : Int) : ℚ)) / 2]⟩

/-! ### Helper lemmas: takeWhile / dropWhile over appends -/

theorem takeWhile_append_all {α : Type} (p : α → Bool) :
    ∀ (xs ys : List α), (∀ c ∈ xs, p c = true) →
      (xs ++ ys).takeWhile p = xs ++ ys.takeWhile p := by
  intro xs ys
  induction xs with
  | nil => intro _; simp
  | cons a l ih =>
    intro h
    have ha : p a = true := h a (List.mem_cons_self a l)
    simp [List.takeWhile, ha]
    exact ih (fun c hc => h c (List.mem_cons_of_mem a hc))

theorem dropWhile_append_all {α : Type} (p : α → Bool) :
    ∀ (xs ys : List α), (∀ c ∈ xs, p c = true) →
      (xs ++ ys).dropWhile p = ys.dropWhile p := by
  intro xs ys
  induction xs with
  | nil => intro _; simp
  | cons a l ih =>
    intro h
    have ha : p a = true := h a (List.mem_cons_self a l)
    simp [List.dropWhile, ha]
    exact ih (fun c hc => h c (List.mem_cons_of_mem a hc))

theorem takeWhile_all {α : Type} (p : α → Bool) (xs : List α)
    (h : ∀ c ∈ xs, p c = true) : xs.takeWhile p = xs := by
  have := takeWhile_append_all p xs [] h
  simpa using this

theorem dropWhile_all_nil {α : Type} (p : α → Bool) (xs : List α)
    (h : ∀ c ∈ xs, p c = true) : xs.dropWhile p = [] := by
  have := dropWhile_append_all p xs [] h
  simpa using this

theorem dropWhile_head_false {α : Type} (p : α → Bool) (xs : List α)
    (h : ∀ c ∈ xs, p c = false) : xs.dropWhile p = xs := by
  cases xs with
  | nil => rfl
  | cons a l => simp [List.dropWhile, h a (List.mem_cons_self a l)]

/-! ### Helper lemmas: characters and `pyInt` -/

theorem ws_not_digit (c : Char) (h : isWs c = true) : c.isDigit = false := by
  simp only [isWs, Bool.or_eq_true, beq_iff_eq] at h
  rcases h with ((((h | h) | h) | h) | h) | h <;> subst h <;> decide

theorem digit_not_ws (c : Char) (h : c.isDigit = true) : isWs c = false := by
  cases hw : isWs c with
  | false => rfl
  | true => rw [ws_not_digit c hw] at h; exact absurd h (by simp)

theorem digit_ne_space (c : Char) (h : c.isDigit = true) : c ≠ ' ' := by
  intro he
  subst he
  exact absurd h (by decide)

theorem digit_isClass (c : Char) (h : c.isDigit = true) : isClass c = true := by
  simp [isClass, h]

theorem space_isClass : isClass ' ' = true := by decide

theorem dropWhile_ws_of_digits (t : List Char) (h : ∀ c ∈ t, c.isDigit = true) :
    t.dropWhile isWs = t := by
  apply dropWhile_head_false
  intro c hc
  exact digit_not_ws c (h c hc)

theorem pyInt_all_digits (t : List Char) (h1 : t ≠ []) (h2 : ∀ c ∈ t, c.isDigit = true) :
    pyInt t = .ok (Int.ofNat (natVal t)) := by
  have hs : stripWs t = t := by
    unfold stripWs
    rw [dropWhile_ws_of_digits t h2]
    rw [dropWhile_ws_of_digits t.reverse (fun c hc => h2 c (List.mem_reverse.mp hc))]
    exact List.reverse_reverse t
  unfold pyInt
  rw [hs]
  rw [if_pos ⟨h1, h2⟩]

/-! ### The shape of valid price tokens: digit groups with embedded spaces -/

/-- First character is a digit. -/
def headDigit (cs : List Char) : Bool :=
  match cs with
  | [] => false
  | c :: _ => c.isDigit

/-- Last character is a digit. -/
def lastDigit (cs : List Char) : Bool :=
  headDigit cs.reverse

/-- A digit group with arbitrary embedded spaces used as thousands
separators: non-empty, made of digits and spaces, starting and ending
with a digit. -/
def SpacedDigits (cs : List Char) : Prop :=
  cs ≠ [] ∧ (∀ c ∈ cs, c.isDigit = true ∨ c = ' ') ∧
    headDigit cs = true ∧ lastDigit cs = true

instance (cs : List Char) : Decidable (SpacedDigits cs) := by
  unfold SpacedDigits
  infer_instance

/-- The integer a spaced digit group denotes after `replace(" ", "")`. -/
def spacedVal (cs : List Char) : Int :=
  Int.ofNat (natVal (stripSpaces cs))

theorem spaced_isClass (cs : List Char) (h : SpacedDigits cs) :
    ∀ c ∈ cs, isClass c = true := by
  intro c hc
  rcases h.2.1 c hc with hd | hsp
  · exact digit_isClass c hd
  · subst hsp; exact space_isClass

theorem stripSpaces_digits (cs : List Char) (h : SpacedDigits cs) :
    stripSpaces cs ≠ [] ∧ ∀ c ∈ stripSpaces cs, c.isDigit = true := by
  constructor
  · cases hcs : cs with
    | nil => exact absurd hcs h.1
    | cons a l =>
      have ha : a.isDigit = true := by
        have := h.2.2.1
        rw [hcs] at this
        simpa [headDigit] using this
      have hne : (a != ' ') = true := by
        simp [bne_iff_ne]
        exact digit_ne_space a ha
      simp [stripSpaces, List.filter, hne]
  · intro c hc
    simp only [stripSpaces, List.mem_filter, bne_iff_ne] at hc
    rcases h.2.1 c hc.1 with hd | hsp
    · exact hd
    · exact absurd hsp hc.2

theorem pyInt_stripSpaces (cs : List Char) (h : SpacedDigits cs) :
    pyInt (stripSpaces cs) = .ok (spacedVal cs) := by
  obtain ⟨h1, h2⟩ := stripSpaces_digits cs h
  exact pyInt_all_digits _ h1 h2

/-- The range regex on the exact text `A - B` with `A`, `B` spaced digit
groups: group 1 is `A`, group 2 is `B`. -/
theorem match2core_spaced (A B : List Char) (hA : SpacedDigits A) (hB : SpacedDigits B) :
    match2core (A ++ ' ' :: '-' :: ' ' :: B) = some (A, B) := by
  have hAclass := spaced_isClass A hA
  have hBclass := spaced_isClass B hB
  have hdrop : (A ++ ' ' :: '-' :: ' ' :: B).dropWhile isClass = '-' :: ' ' :: B := by
    rw [dropWhile_append_all isClass A _ hAclass]
    simp [List.dropWhile, space_isClass, isClass, isWs]
  have htake : (A ++ ' ' :: '-' :: ' ' :: B).takeWhile isClass = A ++ [' '] := by
    rw [takeWhile_append_all isClass A _ hAclass]
    simp [List.takeWhile, space_isClass, isClass, isWs]
  have hAne : A ≠ [] := hA.1
  have hBne : B ≠ [] := hB.1
  unfold match2core
  rw [hdrop]
  simp only [htake]
  have hlen : 2 ≤ (A ++ [' ']).length := by
    simp only [List.length_append, List.length_cons, List.length_nil]
    have : 1 ≤ A.length := by
      cases A with
      | nil => exact absurd rfl hAne
      | cons a l => simp
    omega
  have hlast : (A ++ [' ']).getLast? = some ' ' := by
    simp [List.getLast?_append]
  rw [if_pos ⟨hlen, hlast⟩]
  have hBtake : B.takeWhile isClass = B := takeWhile_all isClass B hBclass
  simp only [hBtake]
  rw [if_neg hBne]
  rw [List.dropLast_concat]

/-! ### Helper lemmas: dict operations -/

theorem dictGet_dictSet {α : Type} (d : List (String × α)) (k : String) (v : α) :
    dictGet (dictSet d k v) k = some v := by
  induction d with
  | nil => simp [dictSet, dictGet, List.find?]
  | cons p rest ih =>
    by_cases h : p.1 == k
    · simp [dictSet, h, dictGet, List.find?]
    · simp only [dictSet, h, if_false]
      simp only [dictGet, List.find?] at ih ⊢
      simp only [Bool.not_eq_true] at h
      rw [h]
      exact ih

theorem countKey_cons_eq {α : Type} (p : String × α) (rest : List (String × α)) (k : String)
    (h : p.1 == k) : countKey (p :: rest) k = countKey rest k + 1 := by
  simp [countKey, List.filter, h]

theorem countKey_cons_ne {α : Type} (p : String × α) (rest : List (String × α)) (k : String)
    (h : (p.1 == k) = false) : countKey (p :: rest) k = countKey rest k := by
  simp [countKey, List.filter, h]

theorem countKey_dictSet {α : Type} (d : List (String × α)) (k : String) (v : α)
    (h : countKey d k ≤ 1) : countKey (dictSet d k v) k = 1 := by
  induction d with
  | nil => simp [dictSet, countKey, List.filter]
  | cons p rest ih =>
    by_cases hp : p.1 == k
    · have hrest : countKey rest k = 0 := by
        have := countKey_cons_eq p rest k hp
        omega
      simp only [dictSet, hp, if_true]
      rw [countKey_cons_eq (k, v) rest k (by simp)]
      omega
    · have hp2 : (p.1 == k) = false := by simpa using hp
      simp only [dictSet]
      rw [if_neg hp]
      rw [countKey_cons_ne p _ k hp2]
      apply ih
      rw [countKey_cons_ne p rest k hp2] at h
      exact h

/-! ### Helper lemmas: the `get_prices` loop -/

theorem getPricesLoop_now (fetch : String → String → Option Html) (loc today : String) :
    ∀ (fuel i : Nat) (ns : List String) (res : List (String × NeighbourhoodPrices))
      (now : Option String) (ns2 : List String)
      (res2 : List (String × NeighbourhoodPrices)) (now2 : Option String),
      getPricesLoop fetch loc today fuel i ns res now = .ok (ns2, res2, now2) →
      now2 = now ∨ now2 = some today := by
  intro fuel
  induction fuel with
  | zero =>
    intro i ns res now ns2 res2 now2 h
    simp only [getPricesLoop, Except.ok.injEq, Prod.mk.injEq] at h
    exact Or.inl h.2.2.symm
  | succ fuel ih =>
    intro i ns res now ns2 res2 now2 h
    simp only [getPricesLoop] at h
    cases hg : ns.get? i with
    | none =>
      simp only [hg, Except.ok.injEq, Prod.mk.injEq] at h
      exact Or.inl h.2.2.symm
    | some x =>
      simp only [hg] at h
      by_cases hx : x.isEmpty = true
      · rw [if_pos hx] at h
        exact ih (i + 1) (ns.erase x) res now ns2 res2 now2 h
      · rw [if_neg hx] at h
        cases hf : fetch loc x with
        | some html =>
          simp only [hf] at h
          cases hr : retrieve_flat_prices (some html) with
          | error e => simp only [hr] at h; cases h
          | ok pricesOpt =>
            simp only [hr] at h
            cases hi : NeighbourhoodPrices.init today x pricesOpt with
            | error e => simp only [hi] at h; cases h
            | ok snap =>
              simp only [hi] at h
              rcases ih (i + 1) ns (dictSet res x snap) (some today) ns2 res2 now2 h with
                h2 | h2
              · right; exact h2
              · right; exact h2
        | none =>
          simp only [hf] at h
          rcases ih (i + 1) (ns.erase x) res (some today) ns2 res2 now2 h with h2 | h2
          · right; exact h2
          · right; exact h2

theorem getPricesLoop_all_empty (fetch : String → String → Option Html) (loc today : String) :
    ∀ (fuel i : Nat) (ns : List String) (res : List (String × NeighbourhoodPrices)),
      (∀ x ∈ ns, x = "") →
      ∃ ns2, getPricesLoop fetch loc today fuel i ns res none = .ok (ns2, res, none) := by
  intro fuel
  induction fuel with
  | zero =>
    intro i ns res _
    exact ⟨ns, rfl⟩
  | succ fuel ih =>
    intro i ns res hall
    cases hg : ns.get? i with
    | none =>
      refine ⟨ns, ?_⟩
      simp only [getPricesLoop, hg]
    | some x =>
      have hx : x = "" := hall x (List.get?_mem hg)
      have hxe : x.isEmpty = true := by rw [hx]; rfl
      have hall2 : ∀ y ∈ ns.erase x, y = "" := by
        intro y hy
        exact hall y (List.mem_of_mem_erase hy)
      obtain ⟨ns2, hns2⟩ := ih (i + 1) (ns.erase x) res hall2
      refine ⟨ns2, ?_⟩
      simp only [getPricesLoop, hg, hxe, if_true]
      exact hns2

theorem getPricesLoop_fetch_congr (f g : String → String → Option Html) (loc today : String)
    (hfg : ∀ l x, x.isEmpty = false → f l x = g l x) :
    ∀ (fuel i : Nat) (ns : List String) (res : List (String × NeighbourhoodPrices))
      (now : Option String),
      getPricesLoop f loc today fuel i ns res now = getPricesLoop g loc today fuel i ns res now := by
  intro fuel
  induction fuel with
  | zero => intro i ns res now; rfl
  | succ fuel ih =>
    intro i ns res now
    simp only [getPricesLoop]
    cases hg : ns.get? i with
    | none => simp only [hg]
    | some x =>
      simp only [hg]
      by_cases hx : x.isEmpty = true
      · simp only [if_pos hx]
        exact ih (i + 1) (ns.erase x) res now
      · simp only [if_neg hx]
        rw [hfg loc x (by simpa using hx)]
        cases hgx : g loc x with
        | none =>
          simp only [hgx]
          exact ih (i + 1) (ns.erase x) res (some today)
        | some html =>
          simp only [hgx]
          cases hr : retrieve_flat_prices (some html) with
          | error e => simp only [hr]
          | ok pricesOpt =>
            simp only [hr]
            cases hi : NeighbourhoodPrices.init today x pricesOpt with
            | error e => simp only [hi]
            | ok snap =>
              simp only [hi]
              exact ih (i + 1) ns (dictSet res x snap) (some today)

/-! ### Helper lemmas: the snapshot constructor -/

theorem roomEntry_avg (kv : String × (PyVal × PyVal)) (t : Int × Int × ℚ × Int)
    (h : roomEntry kv = .ok t) : t.2.2.1 = ((t.1 : ℚ) + (t.1 : ℚ)) / 2 := by
  unfold roomEntry at h
  cases h1 : pyIntVal kv.2.1 with
  | error e => rw [h1] at h; cases h
  | ok mn =>
    rw [h1] at h
    cases h2 : pyIntVal kv.2.2 with
    | error e => rw [h2] at h; cases h
    | ok mx =>
      rw [h2] at h
      cases h3 : pyInt kv.1.data with
      | error e => simp only [h3] at h; cases h
      | ok rm =>
        simp only [h3, Except.ok.injEq] at h
        rw [← h]

theorem roomEntries_avg (d : List (String × (PyVal × PyVal)))
    (ts : List (Int × Int × ℚ × Int)) (h : roomEntries d = .ok ts) :
    ∀ t ∈ ts, t.2.2.1 = ((t.1 : ℚ) + (t.1 : ℚ)) / 2 := by
  induction d generalizing ts with
  | nil =>
    simp only [roomEntries, Except.ok.injEq] at h
    rw [← h]
    intro t ht
    cases ht
  | cons kv rest ih =>
    simp only [roomEntries] at h
    cases h1 : roomEntry kv with
    | error e => rw [h1] at h; cases h
    | ok t0 =>
      rw [h1] at h
      cases h2 : roomEntries rest with
      | error e => rw [h2] at h; cases h
      | ok ts0 =>
        rw [h2] at h
        simp only [Except.ok.injEq] at h
        rw [← h]
        intro t ht
        rcases List.mem_cons.mp ht with he | hm
        · rw [he]; exact roomEntry_avg kv t0 h1
        · exact ih ts0 h2 t hm

/-! ### Claim theorems -/

/-- C1 counterexample: on the spec's example page the claim is false at a
concrete input — the entry for the single-value cell "600 000" carries
`str` components (the digit string "600000"), not Python integers, so
"both tuple components are integers" fails (and the keys are the digit
strings "2"/"3", not integers). -/
theorem C1_counterexample :
    (retrieve_flat_prices (some pageExample)).map
      (Option.map (List.map (fun p => (p.1, p.2.1.isInt, p.2.2.isInt)))) =
      .ok (some [("2", true, true), ("3", false, false)]) := by
  decide

/-- C1 (amended): `retrieve_flat_prices` on the example page returns the
mapping `{"2": (450000, 500000), "3": ("600000", "600000")}` — keys are
digit strings, the range cell yields an integer pair, and the single-value
cell yields the space-stripped string "600000" for both components (so
min = max holds as string equality; the `int` conversion only happens
later in the snapshot constructor). -/
theorem C1_amended :
    retrieve_flat_prices (some pageExample) =
      .ok (some [("2", (PyVal.int 450000, PyVal.int 500000)),
                 ("3", (PyVal.str "600000", PyVal.str "600000"))]) := by
  decide

/-- C4: constructing a snapshot from `None` does not succeed with zero
entries — it raises `AttributeError` at `self.neighb_prices.keys()`
(line 60), while the empty mapping does construct with all four sequences
empty.  The spec requires the null case not to fail, so the code is at
fault on the claim's first half. -/
theorem C4_init_none_raises (date name : String) :
    NeighbourhoodPrices.init date name none = .error .attributeError ∧
    NeighbourhoodPrices.init date name (some []) = .ok ⟨date, name, [], [], [], [], []⟩ :=
  ⟨rfl, rfl⟩

/-- C5: the `__str__` header contains exactly two newlines and every data
row starts with one more, so `newlineCount = 2` means zero data rows were
rendered.  A snapshot with one entry renders zero rows — the
`range(0, len(self.rooms) - 1)` bound omits the last (here: the only)
row — while the empty snapshot renders zero rows without raising, as the
claim says. -/
theorem C5_str_omits_last_row :
    (NeighbourhoodPrices.init "2024-01-01" "portova"
        (some [("2", (PyVal.int 450000, PyVal.int 500000))])).map
      (fun np => (np.rooms.length, newlineCount np.toStr)) = .ok (1, 2) ∧
    (NeighbourhoodPrices.init "2024-01-01" "portova" (some [])).map
      (fun np => (np.rooms.length, newlineCount np.toStr)) = .ok (0, 2) :=
  ⟨rfl, rfl⟩

/-- C6: `to_df` on a collection holding two dates with one row each
returns only one row — the loop rebinds `results` per date, so only the
last date survives, not the claimed sum over all dates — and on an empty
dated mapping it returns Python `None` (modelled `ok none`), an absent
result rather than the claimed empty table. -/
theorem C6_to_df_last_date_only :
    (cityTwoDates.to_df).map (Option.map List.length) = .ok (some 1) ∧
    CityPrices.to_df ⟨"gdynia", [], []⟩ = .ok none :=
  ⟨rfl, rfl⟩

/-- C3: for every successfully constructed snapshot, the average-price
sequence is obtained from the minimum-price sequence alone by the literal
formula `(min + min) / 2` — the maximum prices play no part, since the
averages are a function of the minima. -/
theorem C3_avg_from_min_only (date name : String) (d : PricesDict) (np : NeighbourhoodPrices)
    (h : NeighbourhoodPrices.init date name (some d) = .ok np) :
    np.avg_prices = np.min_prices.map (fun (m : Int) => ((m : ℚ) + (m : ℚ)) / 2) := by
  unfold NeighbourhoodPrices.init at h
  cases hr : roomEntries d with
  | error e => simp only [hr] at h; cases h
  | ok ts =>
    simp only [hr, Except.ok.injEq] at h
    rw [← h]
    simp only []
    rw [List.map_map]
    apply List.map_congr_left
    intro t ht
    exact roomEntries_avg d ts hr t ht

/-- C3 witness: the theorem applied to the concrete mapping
`{"2": (1, 9)}`. -/
theorem C3_avg_from_min_only_witness :
    snapMin1Max9.avg_prices = snapMin1Max9.min_prices.map (fun (m : Int) => ((m : ℚ) + (m : ℚ)) / 2) :=
  C3_avg_from_min_only "2024-01-01" "a" [("2", (PyVal.int 1, PyVal.int 9))] snapMin1Max9 rfl

/-- C2 counterexample: the range cell "500 - 400" (digit groups with the
claimed shape, values inverted) parses to min = 500, max = 400, so the
claim's unconditional `min ≤ max` is false at this concrete input. -/
theorem C2_counterexample :
    retrieve_flat_prices (some pageInverted) =
      .ok (some [("2", (PyVal.int 500, PyVal.int 400))]) ∧
    ¬((500 : Int) ≤ (400 : Int)) := by
  constructor
  · decide
  · decide

/-- C2 (amended): for every room label with a leading digit run and ALL
spaced digit groups `A`, `B` — inverted ones included, since the parser
never checks the order — `retrieve_flat_prices` maps the cell's room key
to the integer pair (A with spaces stripped, B with spaces stripped).
With min and max thus identified, `min ≤ max` holds exactly when the
stripped value of `A` is at most that of `B`; the counterexample shows
the inverted case really occurs, refuting the claim's unconditional
`min ≤ max`. -/
theorem C2_range_cell_parsed (label : String) (A B : List Char)
    (hl : label.data.takeWhile Char.isDigit ≠ [])
    (hA : SpacedDigits A) (hB : SpacedDigits B) :
    retrieve_flat_prices
        (some ⟨[[⟨label, String.mk (A ++ ' ' :: '-' :: ' ' :: B)⟩]]⟩) =
      .ok (some [(String.mk (label.data.takeWhile Char.isDigit),
                  (PyVal.int (spacedVal A), PyVal.int (spacedVal B)))]) := by
  have hcell : processCell [] ⟨label, String.mk (A ++ ' ' :: '-' :: ' ' :: B)⟩ =
      .ok [(String.mk (label.data.takeWhile Char.isDigit),
            (PyVal.int (spacedVal A), PyVal.int (spacedVal B)))] := by
    unfold processCell
    simp only [matchDigitsCore]
    rw [if_neg hl]
    have hdata : (String.mk (A ++ ' ' :: '-' :: ' ' :: B)).data =
        A ++ ' ' :: '-' :: ' ' :: B := rfl
    simp only [hdata, match2core_spaced A B hA hB]
    simp only [pyInt_stripSpaces A hA, pyInt_stripSpaces B hB]
    rfl
  simp only [retrieve_flat_prices, processCells, hcell]

/-- C2 witness: the theorem applied to the cell
"2 pok." / "450 000 - 500 000". -/
theorem C2_range_cell_parsed_witness :
    retrieve_flat_prices
        (some ⟨[[⟨"2 pok.",
                  String.mk ("450 000".data ++ ' ' :: '-' :: ' ' :: "500 000".data)⟩]]⟩) =
      .ok (some [(String.mk ("2 pok.".data.takeWhile Char.isDigit),
                  (PyVal.int (spacedVal "450 000".data), PyVal.int (spacedVal "500 000".data)))]) :=
  C2_range_cell_parsed "2 pok." "450 000".data "500 000".data
    (by decide) (by decide) (by decide)

/-- A successful `get_prices` run writes exactly one upsert into the dated
mapping: the new `data` is `dictSet` of the old at today's date. -/
theorem get_prices_shape (f : String → String → Option Html) (today : String)
    (cp cp2 : CityPrices) (h : CityPrices.get_prices f today cp = .ok cp2) :
    ∃ res, cp2.data = dictSet cp.data today res := by
  unfold CityPrices.get_prices at h
  cases hl : getPricesLoop f cp.location today (cp.neighbs.length + 1) 0 cp.neighbs [] none with
  | error e => simp only [hl] at h; cases h
  | ok trip =>
    obtain ⟨ns, res, nowOpt⟩ := trip
    cases nowOpt with
    | none => simp only [hl] at h; cases h
    | some now =>
      have hm := getPricesLoop_now f cp.location today (cp.neighbs.length + 1) 0
        cp.neighbs [] none ns res (some now) hl
      rcases hm with hnone | htoday
      · cases hnone
      · have hnow : now = today := by
          injection htoday
        simp only [hl, Except.ok.injEq] at h
        refine ⟨res, ?_⟩
        rw [← h, hnow]

/-- C7: if the dated mapping starts with at most one binding for `today`
(always true of a Python dict) and two `get_prices` runs for the same
date both succeed, the final mapping holds exactly one binding for that
date, and it is the second run's results dict, which replaced (upserted
over) the first run's entry. -/
theorem C7_same_date_replaces (f1 f2 : String → String → Option Html) (today : String)
    (cp cp1 cp2 : CityPrices)
    (hnd : countKey cp.data today ≤ 1)
    (h1 : CityPrices.get_prices f1 today cp = .ok cp1)
    (h2 : CityPrices.get_prices f2 today cp1 = .ok cp2) :
    countKey cp2.data today = 1 ∧
    ∃ r2, cp2.data = dictSet cp1.data today r2 ∧ dictGet cp2.data today = some r2 := by
  obtain ⟨r1, hd1⟩ := get_prices_shape f1 today cp cp1 h1
  obtain ⟨r2, hd2⟩ := get_prices_shape f2 today cp1 cp2 h2
  have hc1 : countKey cp1.data today = 1 := by
    rw [hd1]
    exact countKey_dictSet cp.data today r1 hnd
  have hc2 : countKey cp2.data today = 1 := by
    rw [hd2]
    exact countKey_dictSet cp1.data today r2 (le_of_eq hc1)
  refine ⟨hc2, r2, hd2, ?_⟩
  rw [hd2]
  exact dictGet_dictSet cp1.data today r2

/-- C7 witness: two identical successful runs over the one-neighbourhood
city on the same date. -/
theorem C7_same_date_replaces_witness :
    countKey cityA1.data "2024-01-01" = 1 ∧
    ∃ r2, cityA1.data = dictSet cityA1.data "2024-01-01" r2 ∧
      dictGet cityA1.data "2024-01-01" = some r2 :=
  C7_same_date_replaces fetchGood fetchGood "2024-01-01" cityA cityA1 cityA1
    (by decide) rfl rfl

/-- C8 counterexample: running the city ["a", "", ""] (with "a" fetchable)
leaves the list as ["a", ""] — the second empty identifier survives the
run because removing the first one shifted it into the already-visited
slot, refuting "every empty identifier has been removed". -/
theorem C8_counterexample :
    (CityPrices.get_prices fetchGood "2024-01-01" ⟨"gdynia", ["a", "", ""], []⟩).map
      CityPrices.neighbs = .ok ["a", ""] ∧ "" ∈ (["a", ""] : List String) :=
  ⟨rfl, by decide⟩

/-- C8 (amended): no fetch is ever issued for an empty identifier — the
whole run is unchanged if the fetcher is replaced by one that differs
only on empty identifiers — and an empty identifier the iteration visits
is removed; but because the loop removes elements from the list it is
iterating, the element after a removed one is skipped, so empty
identifiers can remain in the list after one invocation (see the
counterexample). -/
theorem C8_no_fetch_for_empty (f g : String → String → Option Html) (today : String)
    (cp : CityPrices) (hfg : ∀ l x, x.isEmpty = false → f l x = g l x) :
    CityPrices.get_prices f today cp = CityPrices.get_prices g today cp := by
  unfold CityPrices.get_prices
  rw [getPricesLoop_fetch_congr f g cp.location today hfg
    (cp.neighbs.length + 1) 0 cp.neighbs [] none]

/-- C8 witness: a fetcher that always fails and one that succeeds only on
empty identifiers agree on all non-empty identifiers, so the runs agree. -/
theorem C8_no_fetch_for_empty_witness :
    CityPrices.get_prices fetchNone "2024-01-01" ⟨"gdynia", ["x"], []⟩ =
      CityPrices.get_prices fetchEmptyOnly "2024-01-01" ⟨"gdynia", ["x"], []⟩ :=
  C8_no_fetch_for_empty fetchNone fetchEmptyOnly "2024-01-01" ⟨"gdynia", ["x"], []⟩
    (by
      intro l x hx
      simp [fetchNone, fetchEmptyOnly, hx])

/-- C9: on a page with no element of class "pricing", the parser raises
(IndexError at `find_all(...)[0]`, the spec's `MissingSection`) instead of
returning a value, and nothing catches it inside the parser or inside
`get_prices` — a run whose first neighbourhood fetches such a page fails
with that very error. -/
theorem C9_missing_section_raises (page : Html) (hp : page.pricingSections = []) :
    retrieve_flat_prices (some page) = .error .missingSection ∧
    ∀ (f : String → String → Option Html) (today : String) (cp : CityPrices)
      (x : String) (rest : List String),
      cp.neighbs = x :: rest → x.isEmpty = false → f cp.location x = some page →
      CityPrices.get_prices f today cp = .error (.pyErr .missingSection) := by
  have hretr : retrieve_flat_prices (some page) = .error .missingSection := by
    simp only [retrieve_flat_prices, hp]
  refine ⟨hretr, ?_⟩
  intro f today cp x rest hns hx hf
  unfold CityPrices.get_prices
  rw [hns]
  simp only [List.length_cons, getPricesLoop, List.get?]
  rw [if_neg (by simp [hx])]
  simp only [hf, hretr]

/-- C9 witness: a sectionless page propagates `MissingSection` out of the
parser and out of `get_prices`. -/
theorem C9_missing_section_raises_witness :
    retrieve_flat_prices (some ⟨[]⟩) = .error .missingSection ∧
    CityPrices.get_prices (fun _ _ => some ⟨[]⟩) "2024-01-01" ⟨"gdynia", ["a"], []⟩ =
      .error (.pyErr .missingSection) :=
  ⟨(C9_missing_section_raises ⟨[]⟩ rfl).1,
   (C9_missing_section_raises ⟨[]⟩ rfl).2 (fun _ _ => some ⟨[]⟩) "2024-01-01"
     ⟨"gdynia", ["a"], []⟩ "a" [] rfl rfl rfl⟩

/-- C10: if every identifier in the neighbourhood list is empty (in
particular if the list is empty), `get_prices` raises the `NameError` of
`self.data[now]` — `now` was never bound — instead of recording an empty
snapshot dict under today's date; conversely a successful run implies the
list held at least one non-empty identifier, so the dated mapping is only
ever written when one was processed. -/
theorem C10_all_empty_raises (f : String → String → Option Html) (today : String)
    (cp : CityPrices) :
    ((∀ x ∈ cp.neighbs, x = "") → CityPrices.get_prices f today cp = .error .nameError) ∧
    (∀ cp2, CityPrices.get_prices f today cp = .ok cp2 → ∃ x ∈ cp.neighbs, x ≠ "") := by
  have hpart1 : (∀ x ∈ cp.neighbs, x = "") →
      CityPrices.get_prices f today cp = .error .nameError := by
    intro hall
    obtain ⟨ns2, hns2⟩ := getPricesLoop_all_empty f cp.location today
      (cp.neighbs.length + 1) 0 cp.neighbs [] hall
    unfold CityPrices.get_prices
    simp only [hns2]
  refine ⟨hpart1, ?_⟩
  intro cp2 hok
  by_cases hall : ∀ x ∈ cp.neighbs, x = ""
  · rw [hpart1 hall] at hok
    cases hok
  · push_neg at hall
    exact hall

/-- C10 witness: the theorem applied to a city whose list holds two empty
identifiers. -/
theorem C10_all_empty_raises_witness :
    CityPrices.get_prices fetchNone "2024-01-01" ⟨"gdynia", ["", ""], []⟩ =
      .error .nameError :=
  (C10_all_empty_raises fetchNone "2024-01-01" ⟨"gdynia", ["", ""], []⟩).1 (by decide)
